import Mathlib

/-!
Verification of the durable commit queue and background synchronization loop
of sparkwms (src/rust_core).

The development shallowly embeds the Rust code:

* `Commit`, `Queue` mirror the structs in `server.rs` / `commit_manager.rs`.
* The filesystem is a `World`: a map from path strings to file contents,
  together with flags saying whether the next write / rename / read
  operation succeeds (modelling `io::Result` failures of `fs::write`,
  `fs::rename` and `fs::read`).
* A file's content is either a well-formed JSON serialization of a queue
  (`FileData.json items` — `serde_json` round-trips the derived
  `Serialize`/`Deserialize` of `Queue` exactly) or bytes that fail to
  parse as a `Queue` (`FileData.corrupt`).
* `Queue.save_as`, `Queue.load`, `Queue.enqueue`, `Queue.peek`,
  `Queue.pop_front`, `enqueue_commit` are translated line by line from
  `commit_manager.rs`.
* The `commit_manager` async loop is embedded as a step function
  `commit_manager_iter` (one iteration of the `loop` body) and
  `commit_manager_run` (n iterations), with the remote `NeonAPI` calls
  `check` / `send_commit` supplied as boolean outcomes per iteration and
  the observable actions (check, submit, pop, sleeps) recorded as a trace
  of `Event`s.
* The FFI boundary of `api.rs` (`cstr_to_string`, `TryFrom<FfiCommit>`,
  `path_from_ptr`, `sparkwms_queue_enqueue`) is embedded with C string
  pointers modelled as null / invalid-UTF-8 / valid string.
-/

/-- One inventory adjustment record (src/rust_core/src/server.rs, `struct Commit`).
`delta` is an `i32` and `item_id` an `i16` in the source; the claims under
verification do not involve overflow, so they are carried as integers. -/
structure Commit where
  device_id : String
  location : String
  delta : Int
  item_id : Int
  deriving DecidableEq

/-- The durable queue (src/rust_core/src/commit_manager.rs, `struct Queue`):
a `VecDeque<Commit>`, embedded as a list whose head is the queue front. -/
structure Queue where
  items : List Commit
  deriving DecidableEq

/-- Content of a file on disk: either a well-formed serialization of a list
of commits (what `serde_json::to_vec_pretty` of a `Queue` produces, and what
`serde_json::from_slice::<Queue>` parses back), or content on which parsing
fails (`FileData.corrupt`). -/
inductive FileData where
  | json (items : List Commit)
  | corrupt
  deriving DecidableEq

/-- I/O failures of the filesystem operations used by the queue. -/
inductive IoError where
  | writeFailed
  | renameFailed
  | readFailed
  deriving DecidableEq

/-- The filesystem state: file contents per path, plus flags prescribing
whether `fs::write`, `fs::rename` and `fs::read` succeed. -/
structure World where
  files : String → Option FileData
  writeOk : Bool
  renameOk : Bool
  readOk : Bool

/-- Replace the content stored at path `p` (`none` deletes the file). -/
def World.setFile (w : World) (p : String) (d : Option FileData) : World :=
  { w with files := fun q => if q = p then d else w.files q }

/-- Model of `fs::write(p, data)`: on success the file at `p` holds exactly
`d`; on failure the call may have partially written `p`, modelled as
corrupt content at `p`. -/
def fsWrite (w : World) (p : String) (d : FileData) : Option IoError × World :=
  if w.writeOk then (none, w.setFile p (some d))
  else (some IoError.writeFailed, w.setFile p (some FileData.corrupt))

/-- Model of `fs::rename(src, dst)`: atomic — on success `dst` holds the
full former content of `src` and `src` is gone; on failure nothing changed. -/
def fsRename (w : World) (src dst : String) : Option IoError × World :=
  if w.renameOk then
    match w.files src with
    | none => (some IoError.renameFailed, w)
    | some d => (none, (w.setFile src none).setFile dst (some d))
  else (some IoError.renameFailed, w)

/-- Model of Rust `Path::with_extension("tmp")` on the reversed character
list: drop the characters after the final dot of the file name (a dot that
leads the file name, as in `.foo`, is not an extension separator). Returns
`none` when the file name has no extension. -/
def dropExtRev : List Char → Option (List Char)
  | [] => none
  | c :: rest =>
    if c = '/' then none
    else if c = '.' then
      if rest = [] ∨ rest.head? = some '/' then none else some rest
    else dropExtRev rest

/-- The temporary sibling path `path.with_extension("tmp")` used by
`Queue::save_as`. -/
def tmpOf (path : String) : String :=
  match dropExtRev path.data.reverse with
  | some r => String.mk (r.reverse ++ ('.' :: ['t', 'm', 'p']))
  | none => String.mk (path.data ++ ('.' :: ['t', 'm', 'p']))

/-- `Queue::save_as` (commit_manager.rs lines 23–32): serialize the whole
queue (`serde_json::to_vec_pretty(self).expect(..)` — serialization of this
type cannot fail), write it to the temporary sibling path, then rename the
temporary file over the target. Errors of either step propagate. -/
def Queue.save_as (q : Queue) (path : String) (w : World) :
    Option IoError × World :=
  let tmp := tmpOf path
  match fsWrite w tmp (FileData.json q.items) with
  | (some e, w1) => (some e, w1)
  | (none, w1) => fsRename w1 tmp path

/-- The successive filesystem states passed through by `Queue::save_as`:
the initial state, the state after the `fs::write` to the temporary path,
and (when the write succeeded) the state after the `fs::rename`. -/
def Queue.save_as_states (q : Queue) (path : String) (w : World) :
    List World :=
  let tmp := tmpOf path
  match fsWrite w tmp (FileData.json q.items) with
  | (some _, w1) => [w, w1]
  | (none, w1) =>
    match fsRename w1 tmp path with
    | (_, w2) => [w, w1, w2]

/-- `Queue::load` (commit_manager.rs lines 36–45): no file means the empty
default queue; a read failure propagates; content that fails to parse is
`unwrap_or_default()`, i.e. also the empty queue. -/
def Queue.load (path : String) (w : World) : Except IoError Queue :=
  match w.files path with
  | none => Except.ok ⟨[]⟩
  | some d =>
    if w.readOk then
      match d with
      | FileData.json items => Except.ok ⟨items⟩
      | FileData.corrupt => Except.ok ⟨[]⟩
    else Except.error IoError.readFailed

/-- `Queue::enqueue` (commit_manager.rs lines 49–52): push the commit on
the back of the in-memory queue, then `save_as`. The in-memory queue is
mutated even when the save fails (in Rust, `self` was already pushed);
the save's error status is returned alongside. -/
def Queue.enqueue (q : Queue) (c : Commit) (path : String) (w : World) :
    Queue × Option IoError × World :=
  let q' : Queue := ⟨q.items ++ [c]⟩
  let r := Queue.save_as q' path w
  (q', r.1, r.2)

/-- `Queue::peek` (commit_manager.rs lines 55–57). -/
def Queue.peek (q : Queue) : Option Commit :=
  q.items.head?

/-- `Queue::pop_front` (commit_manager.rs lines 60–66): pop the front of
the in-memory queue; only if an item was removed, save, propagating a save
error (after the in-memory pop already happened). -/
def Queue.pop_front (q : Queue) (path : String) (w : World) :
    Queue × Except IoError (Option Commit) × World :=
  match q.items with
  | [] => (q, Except.ok none, w)
  | c :: rest =>
    match Queue.save_as ⟨rest⟩ path w with
    | (none, w') => (⟨rest⟩, Except.ok (some c), w')
    | (some e, w') => (⟨rest⟩, Except.error e, w')

/-- `enqueue_commit` (commit_manager.rs lines 70–74): load the queue from
the path, append the commit and save; errors of load or save propagate. -/
def enqueue_commit (path : String) (c : Commit) (w : World) :
    Option IoError × World :=
  match Queue.load path w with
  | Except.error e => (some e, w)
  | Except.ok q =>
    let r := Queue.enqueue q c path w
    (r.2.1, r.2.2)

/-- `queue_len` (commit_manager.rs lines 77–79). -/
def queue_len (path : String) (w : World) : Except IoError Nat :=
  match Queue.load path w with
  | Except.error e => Except.error e
  | Except.ok q => Except.ok q.items.length

/-- Observable actions of one iteration of the `commit_manager` loop:
the remote liveness check and its outcome, a `send_commit` attempt and its
outcome, the pop of a delivered commit, the 1-second idle sleep, and the
5-second backoff sleep. -/
inductive Event where
  | check (ok : Bool)
  | submit (c : Commit) (ok : Bool)
  | pop (c : Commit)
  | sleepIdle
  | sleepBackoff
  deriving DecidableEq

/-- State of the running manager: the in-memory queue loaded by
`commit_manager` (held in the local variable `queue`) and the filesystem. -/
structure MgrState where
  queue : Queue
  world : World

/-- One iteration of the `loop` body of `commit_manager` (commit_manager.rs
lines 88–113), translated branch by branch. `cOk` is the outcome of
`api.check().await` and `sOk` that of `api.send_commit(..).await` for this
iteration (consumed only if the corresponding call is reached). Returns the
next state and the trace of events of the iteration, or the `io::Error`
that `queue.pop_front(&path_buf)?` propagates out of the loop. -/
def commit_manager_iter (path : String) (cOk sOk : Bool) (s : MgrState) :
    Except IoError (MgrState × List Event) :=
  if s.queue.items.length > 0 then
    if s.queue.items.isEmpty then
      Except.ok (s, [Event.sleepIdle])
    else
      match s.queue.peek with
      | none => Except.ok (s, [])
      | some c =>
        if cOk = false then
          Except.ok (s, [Event.check false, Event.sleepBackoff])
        else if sOk = false then
          Except.ok (s, [Event.check true, Event.submit c false,
            Event.sleepBackoff])
        else
          match Queue.pop_front s.queue path s.world with
          | (q', Except.ok _, w') =>
            Except.ok (⟨q', w'⟩,
              [Event.check true, Event.submit c true, Event.pop c])
          | (_, Except.error e, _) => Except.error e
  else
    Except.ok (s, [])

/-- `n` iterations of the `commit_manager` loop, with `env i` giving the
outcomes of the remote `check` and `send_commit` calls of iteration `i`.
Accumulates the event traces; the first propagated `io::Error` ends the
run (the Rust loop function returns). -/
def commit_manager_run (path : String) (env : Nat → Bool × Bool)
    (s : MgrState) : Nat → Except IoError (MgrState × List Event)
  | 0 => Except.ok (s, [])
  | n + 1 =>
    match commit_manager_iter path (env 0).1 (env 0).2 s with
    | Except.error e => Except.error e
    | Except.ok (s', evs) =>
      match commit_manager_run path (fun i => env (i + 1)) s' n with
      | Except.error e => Except.error e
      | Except.ok (s'', evs') => Except.ok (s'', evs ++ evs')

/-- Startup of `commit_manager` (commit_manager.rs lines 85–86): the queue
is loaded from the path once, before the loop; a load error propagates. -/
def commit_manager_start (path : String) (w : World) :
    Except IoError MgrState :=
  match Queue.load path w with
  | Except.error e => Except.error e
  | Except.ok q => Except.ok ⟨q, w⟩

/-- The remote-call schedule of the at-least-once test scenario: `check`
always succeeds, `send_commit` fails on iterations `0 .. N-1` and succeeds
from iteration `N` on. -/
def failNEnv (N : Nat) : Nat → Bool × Bool :=
  fun i => (true, decide (N ≤ i))

/-- A sample commit (the concrete scenario of spec §8). -/
def c0 : Commit :=
  ⟨"dev-1", "A1", -3, 42⟩

/-- A second sample commit (the concrete scenario of spec §8). -/
def c1 : Commit :=
  ⟨"dev-1", "A1", 5, 42⟩

/-- An initial world: no files, all filesystem operations succeed. -/
def w0 : World :=
  ⟨fun _ => none, true, true, true⟩

/-- A world in which `fs::write` fails (e.g. disk full), used to exercise
persistence-failure paths. -/
def wNoWrite : World :=
  ⟨fun _ => none, false, true, true⟩

/-- The world after a producer used the Enqueue API to persist `c0` to the
default queue path, starting from the empty initial world. -/
def wAfter : World :=
  (enqueue_commit "commit_queue.json" c0 w0).2

/-- A world whose file at the default queue path exists but does not
parse as a queue. -/
def wCorrupt : World :=
  w0.setFile "commit_queue.json" (some FileData.corrupt)

/-- A world whose file at the default queue path holds the one-element
queue `[c0]`. -/
def wWith : World :=
  w0.setFile "commit_queue.json" (some (FileData.json [c0]))

/-- The error taxonomy of src/rust_core/src/errors.rs (`enum AppError`). -/
inductive AppError where
  | Validation (msg : String)
  | Network (msg : String)
  | Server (status : Nat) (msg : String)
  | Unauthorized
  | Serialization (msg : String)
  | Internal (msg : String)
  deriving DecidableEq

/-- A C string pointer as seen by the FFI boundary of api.rs: either null,
or pointing at bytes that are not valid UTF-8, or pointing at a valid
UTF-8 string. -/
inductive CStr where
  | null
  | invalid
  | valid (s : String)
  deriving DecidableEq

/-- `cstr_to_string` (api.rs lines 59–70): a null pointer and invalid
UTF-8 are Validation errors; otherwise the owned string is returned. -/
def cstr_to_string (p : CStr) (field : String) : Except AppError String :=
  match p with
  | CStr.null =>
    Except.error (AppError.Validation (field ++ " pointer was null"))
  | CStr.invalid =>
    Except.error (AppError.Validation (field ++ " was not valid UTF-8"))
  | CStr.valid s => Except.ok s

/-- `struct FfiCommit` (api.rs lines 51–57): the raw commit crossing the
FFI boundary, with the two string fields as C pointers. -/
structure FfiCommit where
  device_id : CStr
  location : CStr
  delta : Int
  item_id : Int
  deriving DecidableEq

/-- `TryFrom<FfiCommit> for Commit` (api.rs lines 72–83): convert both
string fields through `cstr_to_string` (propagating their Validation
errors) and carry the numeric fields over unchanged. -/
def Commit.tryFrom (v : FfiCommit) : Except AppError Commit :=
  match cstr_to_string v.device_id "device_id" with
  | Except.error e => Except.error e
  | Except.ok d =>
    match cstr_to_string v.location "location" with
    | Except.error e => Except.error e
    | Except.ok l => Except.ok ⟨d, l, v.delta, v.item_id⟩

/-- `path_from_ptr` (api.rs lines 85–91): a null path pointer selects the
default queue path `commit_queue.json`; otherwise the pointer is converted
like any C string. -/
def path_from_ptr (p : CStr) : Except AppError String :=
  match p with
  | CStr.null => Except.ok "commit_queue.json"
  | _ => cstr_to_string p "path"

/-- `sparkwms_queue_enqueue` (api.rs lines 230–251): resolve the path,
convert the FFI commit, run `enqueue_commit`, and report success as the
boolean return (the `err_out` error slot is reflected by that boolean:
`true` exactly when `write_success` was called). -/
def sparkwms_queue_enqueue (path : CStr) (commit : FfiCommit) (w : World) :
    Bool × World :=
  match path_from_ptr path with
  | Except.error _ => (false, w)
  | Except.ok p =>
    match Commit.tryFrom commit with
    | Except.error _ => (false, w)
    | Except.ok c =>
      match enqueue_commit p c w with
      | (none, w') => (true, w')
      | (some _, w') => (false, w')

/-- Saving succeeds exactly when both the write and the rename succeed. -/
theorem save_as_fst_eq_none_iff (q : Queue) (path : String) (w : World) :
    (Queue.save_as q path w).1 = none ↔
      (w.writeOk = true ∧ w.renameOk = true) := by
  unfold Queue.save_as fsWrite fsRename World.setFile
  by_cases hw : w.writeOk <;> by_cases hr : w.renameOk <;> simp [hw, hr]

/-- After a successful save the target path holds the freshly serialized
queue. -/
theorem save_as_files_path (q : Queue) (path : String) (w : World)
    (hw : w.writeOk = true) (hr : w.renameOk = true) :
    (Queue.save_as q path w).2.files path = some (FileData.json q.items) := by
  unfold Queue.save_as fsWrite fsRename World.setFile
  simp [hw, hr]

/-- Saving never changes the read-success flag of the world. -/
theorem save_as_snd_readOk (q : Queue) (path : String) (w : World) :
    (Queue.save_as q path w).2.readOk = w.readOk := by
  unfold Queue.save_as fsWrite fsRename World.setFile
  by_cases hw : w.writeOk <;> by_cases hr : w.renameOk <;> simp [hw, hr]

/-- `pop_front` on a non-empty queue whose save succeeds: head removed and
returned, world advanced by the save of the tail. -/
theorem pop_front_cons_ok (c : Commit) (rest : List Commit) (path : String)
    (w : World) (h : (Queue.save_as ⟨rest⟩ path w).1 = none) :
    Queue.pop_front ⟨c :: rest⟩ path w
      = (⟨rest⟩, Except.ok (some c), (Queue.save_as ⟨rest⟩ path w).2) := by
  unfold Queue.pop_front
  rcases hs : Queue.save_as ⟨rest⟩ path w with ⟨e, w'⟩
  rw [hs] at h
  cases e with
  | none => simp [hs]
  | some e => simp at h

/-- An iteration on an empty in-memory queue does nothing: same state, no
events, and in particular no sleep (the outer `len() > 0` guard skips the
whole body, so the loop busy-spins). -/
theorem iter_empty (path : String) (cOk sOk : Bool) (w : World) :
    commit_manager_iter path cOk sOk ⟨⟨[]⟩, w⟩
      = Except.ok (⟨⟨[]⟩, w⟩, []) :=
  rfl

/-- An iteration on a non-empty queue with a failing remote probe: backoff
sleep, nothing else. -/
theorem iter_check_fail (path : String) (sOk : Bool) (c : Commit)
    (rest : List Commit) (w : World) :
    commit_manager_iter path false sOk ⟨⟨c :: rest⟩, w⟩
      = Except.ok (⟨⟨c :: rest⟩, w⟩,
          [Event.check false, Event.sleepBackoff]) := by
  simp [commit_manager_iter, Queue.peek]

/-- An iteration on a non-empty queue with a failing submit: the head is
attempted, a backoff sleep follows, the state is unchanged. -/
theorem iter_submit_fail (path : String) (c : Commit) (rest : List Commit)
    (w : World) :
    commit_manager_iter path true false ⟨⟨c :: rest⟩, w⟩
      = Except.ok (⟨⟨c :: rest⟩, w⟩,
          [Event.check true, Event.submit c false, Event.sleepBackoff]) := by
  simp [commit_manager_iter, Queue.peek]

/-- An iteration on a non-empty queue with a successful submit and a
successful save: the head is submitted and popped. -/
theorem iter_success (path : String) (c : Commit) (rest : List Commit)
    (w : World) (h : (Queue.save_as ⟨rest⟩ path w).1 = none) :
    commit_manager_iter path true true ⟨⟨c :: rest⟩, w⟩
      = Except.ok (⟨⟨rest⟩, (Queue.save_as ⟨rest⟩ path w).2⟩,
          [Event.check true, Event.submit c true, Event.pop c]) := by
  simp [commit_manager_iter, Queue.peek,
    pop_front_cons_ok c rest path w h]

/-- An iteration on a non-empty queue where the submit succeeded but the
subsequent queue save failed: the `?` in `queue.pop_front(&path_buf)?`
propagates the error and the loop function returns. -/
theorem iter_save_fail (path : String) (c : Commit) (rest : List Commit)
    (w : World) (e : IoError)
    (h : (Queue.save_as ⟨rest⟩ path w).1 = some e) :
    commit_manager_iter path true true ⟨⟨c :: rest⟩, w⟩
      = Except.error e := by
  have hpop : Queue.pop_front ⟨c :: rest⟩ path w
      = (⟨rest⟩, Except.error e, (Queue.save_as ⟨rest⟩ path w).2) := by
    unfold Queue.pop_front
    rcases hs : Queue.save_as ⟨rest⟩ path w with ⟨e', w'⟩
    rw [hs] at h
    cases e' with
    | none => simp at h
    | some e' =>
      simp only [Option.some.injEq] at h
      subst h
      simp [hs]
  simp [commit_manager_iter, Queue.peek, hpop]

/-- Exhaustive description of a non-failing iteration: either the queue
was empty and nothing happened, or the head `c` was inspected and the
iteration is one of the probe-failure, submit-failure or success shapes.
The idle-sleep branch of the code is unreachable (it needs
`len() > 0` and `is_empty()` at once), so no case emits `sleepIdle`. -/
theorem iter_ok_cases (path : String) (cOk sOk : Bool) (s s' : MgrState)
    (evs : List Event)
    (h : commit_manager_iter path cOk sOk s = Except.ok (s', evs)) :
    (evs = [] ∧ s' = s)
    ∨ (∃ c rest, s.queue.items = c :: rest ∧ s.queue.peek = some c ∧
        ((evs = [Event.check false, Event.sleepBackoff] ∧ s' = s)
         ∨ (evs = [Event.check true, Event.submit c false,
              Event.sleepBackoff] ∧ s' = s)
         ∨ (evs = [Event.check true, Event.submit c true, Event.pop c]
            ∧ s'.queue = ⟨rest⟩))) := by
  obtain ⟨⟨items⟩, w₁⟩ := s
  cases items with
  | nil =>
    left
    rw [iter_empty] at h
    simp only [Except.ok.injEq, Prod.mk.injEq] at h
    exact ⟨h.2.symm, h.1.symm⟩
  | cons c rest =>
    right
    refine ⟨c, rest, rfl, rfl, ?_⟩
    cases cOk with
    | false =>
      rw [iter_check_fail] at h
      simp only [Except.ok.injEq, Prod.mk.injEq] at h
      exact Or.inl ⟨h.2.symm, h.1.symm⟩
    | true =>
      cases sOk with
      | false =>
        rw [iter_submit_fail] at h
        simp only [Except.ok.injEq, Prod.mk.injEq] at h
        exact Or.inr (Or.inl ⟨h.2.symm, h.1.symm⟩)
      | true =>
        rcases hs : (Queue.save_as ⟨rest⟩ path w₁).1 with _ | e
        · rw [iter_success path c rest w₁ hs] at h
          simp only [Except.ok.injEq, Prod.mk.injEq] at h
          refine Or.inr (Or.inr ⟨h.2.symm, ?_⟩)
          rw [← h.1]
        · rw [iter_save_fail path c rest w₁ e hs] at h
          exact absurd h (by simp)

/-- Shifting the at-least-once schedule by one iteration lowers the number
of remaining failures by one. -/
theorem failNEnv_succ (N : Nat) :
    (fun i => failNEnv (N + 1) (i + 1)) = failNEnv N := by
  funext i
  simp [failNEnv]

/-- With an empty in-memory queue the loop makes no progress and emits no
events, for any number of iterations and any remote behavior. -/
theorem run_empty (path : String) (w : World) :
    ∀ (n : Nat) (env : Nat → Bool × Bool),
      commit_manager_run path env ⟨⟨[]⟩, w⟩ n
        = Except.ok (⟨⟨[]⟩, w⟩, []) := by
  intro n
  induction n with
  | zero => intro env; rfl
  | succ m ih =>
    intro env
    show (match commit_manager_iter path (env 0).1 (env 0).2 ⟨⟨[]⟩, w⟩ with
      | Except.error e => Except.error e
      | Except.ok (s', evs) =>
        match commit_manager_run path (fun i => env (i + 1)) s' m with
        | Except.error e => Except.error e
        | Except.ok (s'', evs') => Except.ok (s'', evs ++ evs'))
      = Except.ok (⟨⟨[]⟩, w⟩, [])
    rw [iter_empty]
    simp [ih (fun i => env (i + 1))]

/-- The at-least-once scenario: starting from head commit `c`, under the
schedule where `submit` fails on the first `N` attempts and succeeds on
attempt `N + 1`, running `N + 1` iterations yields exactly `N` failed
submits of `c` followed by one successful submit of `c` and its pop, and
the queue advances to `rest` with the tail saved to disk. -/
theorem run_failN (N : Nat) (c : Commit) (rest : List Commit)
    (path : String) (w : World)
    (h : (Queue.save_as ⟨rest⟩ path w).1 = none) :
    commit_manager_run path (failNEnv N) ⟨⟨c :: rest⟩, w⟩ (N + 1)
      = Except.ok (⟨⟨rest⟩, (Queue.save_as ⟨rest⟩ path w).2⟩,
          (List.replicate N [Event.check true, Event.submit c false,
            Event.sleepBackoff]).flatten
            ++ [Event.check true, Event.submit c true, Event.pop c]) := by
  induction N with
  | zero =>
    show (match commit_manager_iter path (failNEnv 0 0).1 (failNEnv 0 0).2
        ⟨⟨c :: rest⟩, w⟩ with
      | Except.error e => Except.error e
      | Except.ok (s', evs) =>
        match commit_manager_run path (fun i => failNEnv 0 (i + 1)) s' 0 with
        | Except.error e => Except.error e
        | Except.ok (s'', evs') => Except.ok (s'', evs ++ evs')) = _
    have he : failNEnv 0 0 = (true, true) := by simp [failNEnv]
    rw [he, iter_success path c rest w h]
    simp [commit_manager_run]
  | succ n ih =>
    show (match commit_manager_iter path (failNEnv (n + 1) 0).1
        (failNEnv (n + 1) 0).2 ⟨⟨c :: rest⟩, w⟩ with
      | Except.error e => Except.error e
      | Except.ok (s', evs) =>
        match commit_manager_run path (fun i => failNEnv (n + 1) (i + 1))
            s' (n + 1) with
        | Except.error e => Except.error e
        | Except.ok (s'', evs') => Except.ok (s'', evs ++ evs')) = _
    have he : failNEnv (n + 1) 0 = (true, false) := by simp [failNEnv]
    rw [he, iter_submit_fail, failNEnv_succ]
    simp [ih, List.replicate_succ]

/-- C1: commits are removed from the durable queue if and only if their
submission via the SyncGate was confirmed successful, delivery is strict
FIFO (a submit attempt is always of the current head, and a pop of a
commit happens in an iteration exactly when its submit succeeded there),
and under the schedule where `submit` fails for the head commit on its
first `N` attempts and succeeds on attempt `N + 1`, exactly `N + 1`
submits of that commit occur — no later commit attempted — and it is
popped only after the success, with the remaining queue saved. -/
theorem commit_manager_fifo_at_least_once (N : Nat) (c : Commit)
    (rest : List Commit) (path : String) (w : World) (s s' : MgrState)
    (cOk sOk : Bool) (evs : List Event) (x : Commit) (xOk : Bool)
    (hw : w.writeOk = true) (hr : w.renameOk = true)
    (hIter : commit_manager_iter path cOk sOk s = Except.ok (s', evs))
    (hx : Event.submit x xOk ∈ evs) :
    commit_manager_run path (failNEnv N) ⟨⟨c :: rest⟩, w⟩ (N + 1)
      = Except.ok (⟨⟨rest⟩, (Queue.save_as ⟨rest⟩ path w).2⟩,
          (List.replicate N [Event.check true, Event.submit c false,
            Event.sleepBackoff]).flatten
            ++ [Event.check true, Event.submit c true, Event.pop c])
    ∧ s.queue.peek = some x
    ∧ (∀ y : Commit, Event.pop y ∈ evs ↔ Event.submit y true ∈ evs) := by
  refine ⟨run_failN N c rest path w
    ((save_as_fst_eq_none_iff ⟨rest⟩ path w).mpr ⟨hw, hr⟩), ?_⟩
  rcases iter_ok_cases path cOk sOk s s' evs hIter with
    ⟨he, _⟩ | ⟨c', rest', hitems, hpeek, hcase⟩
  · subst he
    simp at hx
  · rcases hcase with ⟨he, _⟩ | ⟨he, _⟩ | ⟨he, _⟩
    · subst he
      simp at hx
    · subst he
      simp at hx
      obtain ⟨hx1, _⟩ := hx
      subst hx1
      exact ⟨hpeek, by intro y; simp⟩
    · subst he
      simp at hx
      obtain ⟨hx1, _⟩ := hx
      subst hx1
      exact ⟨hpeek, by intro y; simp⟩

/-- C1 witness: one failed and one successful submit of the sample commit
on a singleton queue in a healthy world. -/
theorem commit_manager_fifo_at_least_once_witness :
    commit_manager_run "commit_queue.json" (failNEnv 1) ⟨⟨[c0]⟩, w0⟩ 2
      = Except.ok (⟨⟨[]⟩, (Queue.save_as ⟨[]⟩ "commit_queue.json" w0).2⟩,
          (List.replicate 1 [Event.check true, Event.submit c0 false,
            Event.sleepBackoff]).flatten
            ++ [Event.check true, Event.submit c0 true, Event.pop c0])
    ∧ (MgrState.mk ⟨[c0]⟩ w0).queue.peek = some c0
    ∧ (∀ y : Commit,
        Event.pop y ∈ [Event.check true, Event.submit c0 true, Event.pop c0]
          ↔ Event.submit y true
              ∈ [Event.check true, Event.submit c0 true, Event.pop c0]) :=
  commit_manager_fifo_at_least_once 1 c0 [] "commit_queue.json" w0
    ⟨⟨[c0]⟩, w0⟩ ⟨⟨[]⟩, (Queue.save_as ⟨[]⟩ "commit_queue.json" w0).2⟩
    true true [Event.check true, Event.submit c0 true, Event.pop c0] c0 true
    rfl rfl (iter_success "commit_queue.json" c0 [] w0 (by decide)) (by simp)

/-- C2: contrary to the Idle state of the claim, an iteration with an
empty queue performs no sleep at all: it leaves the state unchanged and
emits no event (the `len() > 0` guard skips the body, so the loop
busy-spins), and the 1-second idle sleep can never occur in any
iteration — its branch requires the queue to be non-empty and empty at
once and is dead code. -/
theorem commit_manager_empty_queue_busy_spins (path : String)
    (cOk sOk : Bool) (w : World) (s s' : MgrState) (evs : List Event)
    (h : commit_manager_iter path cOk sOk s = Except.ok (s', evs)) :
    commit_manager_iter path cOk sOk ⟨⟨[]⟩, w⟩ = Except.ok (⟨⟨[]⟩, w⟩, [])
    ∧ Event.sleepIdle ∉ evs := by
  refine ⟨iter_empty path cOk sOk w, ?_⟩
  rcases iter_ok_cases path cOk sOk s s' evs h with
    ⟨he, _⟩ | ⟨c', rest', _, _, hcase⟩
  · subst he
    simp
  · rcases hcase with ⟨he, _⟩ | ⟨he, _⟩ | ⟨he, _⟩ <;> subst he <;> simp

/-- C2 witness: the empty-queue iteration in the initial world. -/
theorem commit_manager_empty_queue_busy_spins_witness :
    commit_manager_iter "commit_queue.json" true true ⟨⟨[]⟩, w0⟩
      = Except.ok (⟨⟨[]⟩, w0⟩, [])
    ∧ Event.sleepIdle ∉ ([] : List Event) :=
  commit_manager_empty_queue_busy_spins "commit_queue.json" true true w0
    ⟨⟨[]⟩, w0⟩ ⟨⟨[]⟩, w0⟩ [] rfl

/-- C3 counterexample: with a non-empty queue, a healthy remote and a
world whose writes fail, the iteration returns an error — the loop
terminates on an internal condition, refuting the claim that no error
inside the loop makes the function return. -/
theorem commit_manager_terminates_on_save_error :
    commit_manager_iter "commit_queue.json" true true ⟨⟨[c0]⟩, wNoWrite⟩
      = Except.error IoError.writeFailed :=
  iter_save_fail "commit_queue.json" c0 [] wNoWrite IoError.writeFailed
    (by decide)

/-- C3 amended: the loop never terminates on a remote (probe or submit)
error — if an iteration makes the loop function return, then the probe
and the submit both succeeded, the queue was non-empty, and the error is
precisely the filesystem error of the queue save inside
`queue.pop_front(&path_buf)?`. -/
theorem commit_manager_exits_only_on_persistence_error (path : String)
    (cOk sOk : Bool) (s : MgrState) (e : IoError)
    (h : commit_manager_iter path cOk sOk s = Except.error e) :
    cOk = true ∧ sOk = true ∧ s.queue.items ≠ []
    ∧ (s.world.writeOk = false ∨ s.world.renameOk = false)
    ∧ (Queue.save_as ⟨s.queue.items.tail⟩ path s.world).1 = some e := by
  obtain ⟨⟨items⟩, w₁⟩ := s
  cases items with
  | nil =>
    rw [iter_empty] at h
    exact absurd h (by simp)
  | cons c rest =>
    cases cOk with
    | false =>
      rw [iter_check_fail] at h
      exact absurd h (by simp)
    | true =>
      cases sOk with
      | false =>
        rw [iter_submit_fail] at h
        exact absurd h (by simp)
      | true =>
        rcases hs : (Queue.save_as ⟨rest⟩ path w₁).1 with _ | e'
        · rw [iter_success path c rest w₁ hs] at h
          exact absurd h (by simp)
        · rw [iter_save_fail path c rest w₁ e' hs] at h
          simp only [Except.error.injEq] at h
          subst h
          refine ⟨rfl, rfl, by simp, ?_, hs⟩
          by_cases hw : w₁.writeOk
          · by_cases hr : w₁.renameOk
            · exfalso
              have hnone :=
                (save_as_fst_eq_none_iff ⟨rest⟩ path w₁).mpr ⟨hw, hr⟩
              rw [hnone] at hs
              exact absurd hs (by simp)
            · exact Or.inr (by simpa using hr)
          · exact Or.inl (by simpa using hw)

/-- C3 amended witness: the write-failure scenario of the counterexample,
run through the amended theorem. -/
theorem commit_manager_exits_only_on_persistence_error_witness :
    true = true ∧ true = true ∧ (Queue.mk [c0]).items ≠ []
    ∧ (wNoWrite.writeOk = false ∨ wNoWrite.renameOk = false)
    ∧ (Queue.save_as ⟨(Queue.mk [c0]).items.tail⟩ "commit_queue.json"
        wNoWrite).1 = some IoError.writeFailed :=
  commit_manager_exits_only_on_persistence_error "commit_queue.json"
    true true ⟨⟨[c0]⟩, wNoWrite⟩ IoError.writeFailed
    (iter_save_fail "commit_queue.json" c0 [] wNoWrite IoError.writeFailed
      (by decide))

/-- C4: the claim fails — `commit_manager` loads the queue into memory
once, before the loop, and the loop never re-reads the file. Starting the
manager on an empty queue file and then persisting commit `c0` through
the Enqueue API leaves the file holding `c0`, yet every subsequent run of
the loop, under any remote behavior and any number of iterations, keeps
the empty in-memory queue, emits no event, and never attempts `c0`. -/
theorem commit_manager_never_observes_later_enqueue :
    commit_manager_start "commit_queue.json" w0 = Except.ok ⟨⟨[]⟩, w0⟩
    ∧ (enqueue_commit "commit_queue.json" c0 w0).1 = none
    ∧ wAfter.files "commit_queue.json" = some (FileData.json [c0])
    ∧ ∀ (env : Nat → Bool × Bool) (n : Nat),
        commit_manager_run "commit_queue.json" env ⟨⟨[]⟩, wAfter⟩ n
          = Except.ok (⟨⟨[]⟩, wAfter⟩, []) := by
  refine ⟨rfl, by decide, by decide, ?_⟩
  intro env n
  exact run_empty "commit_queue.json" wAfter n env

/-- C5: `save_as` writes the complete serialized queue to the temporary
sibling path (the state after the write holds exactly the initial world
plus the full new content at the temporary path), then renames it over
the target; in every intermediate filesystem state the target path holds
either its previous content or the complete new content, and after a
successful save it holds the new content. The hypothesis is the source's
precondition that the path ends in `.json`, so that the temporary path is
a genuine sibling. -/
theorem save_as_atomic (q : Queue) (path : String) (w : World)
    (h : tmpOf path ≠ path) :
    (∀ w' ∈ Queue.save_as_states q path w,
       w'.files path = w.files path
       ∨ w'.files path = some (FileData.json q.items))
    ∧ ((Queue.save_as q path w).1 = none →
       (Queue.save_as q path w).2.files path
         = some (FileData.json q.items))
    ∧ (w.writeOk = true →
       (Queue.save_as_states q path w).get? 1
         = some (w.setFile (tmpOf path) (some (FileData.json q.items))))
    ∧ (Queue.save_as_states q path w).getLast?
        = some (Queue.save_as q path w).2 := by
  have hne : ¬(path = tmpOf path) := fun e => h e.symm
  unfold Queue.save_as Queue.save_as_states fsWrite fsRename World.setFile
  by_cases hw : w.writeOk <;> by_cases hr : w.renameOk <;> simp_all

/-- C5 witness: the atomic-save guarantees at the default queue path. -/
theorem save_as_atomic_witness :
    (∀ w' ∈ Queue.save_as_states ⟨[c0]⟩ "commit_queue.json" w0,
       w'.files "commit_queue.json" = w0.files "commit_queue.json"
       ∨ w'.files "commit_queue.json" = some (FileData.json [c0]))
    ∧ ((Queue.save_as ⟨[c0]⟩ "commit_queue.json" w0).1 = none →
       (Queue.save_as ⟨[c0]⟩ "commit_queue.json" w0).2.files
         "commit_queue.json" = some (FileData.json [c0]))
    ∧ (w0.writeOk = true →
       (Queue.save_as_states ⟨[c0]⟩ "commit_queue.json" w0).get? 1
         = some (w0.setFile (tmpOf "commit_queue.json")
             (some (FileData.json [c0]))))
    ∧ (Queue.save_as_states ⟨[c0]⟩ "commit_queue.json" w0).getLast?
        = some (Queue.save_as ⟨[c0]⟩ "commit_queue.json" w0).2 :=
  save_as_atomic ⟨[c0]⟩ "commit_queue.json" w0 (by decide)

/-- C6: `load` returns the empty queue when no file exists at the path,
and also returns the empty queue — not an error — when the file exists
and is readable but its content fails to parse. -/
theorem load_missing_or_corrupt_is_empty (path : String) (w w' : World)
    (h1 : w.files path = none)
    (h2 : w'.files path = some FileData.corrupt) (h3 : w'.readOk = true) :
    Queue.load path w = Except.ok ⟨[]⟩
    ∧ Queue.load path w' = Except.ok ⟨[]⟩ := by
  constructor
  · unfold Queue.load
    rw [h1]
  · unfold Queue.load
    rw [h2]
    simp [h3]

/-- C6 witness: the initial world has no queue file; `wCorrupt` has an
unparsable one. -/
theorem load_missing_or_corrupt_is_empty_witness :
    Queue.load "commit_queue.json" w0 = Except.ok ⟨[]⟩
    ∧ Queue.load "commit_queue.json" wCorrupt = Except.ok ⟨[]⟩ :=
  load_missing_or_corrupt_is_empty "commit_queue.json" w0 wCorrupt
    rfl (by decide) rfl

/-- After a successful save, loading from the same path in the resulting
world reproduces the saved queue exactly. -/
theorem load_after_save (q : Queue) (path : String) (w : World)
    (hw : w.writeOk = true) (hr : w.renameOk = true)
    (hread : w.readOk = true) :
    Queue.load path (Queue.save_as q path w).2 = Except.ok q := by
  have h1 := save_as_files_path q path w hw hr
  have h2 := save_as_snd_readOk q path w
  unfold Queue.load
  rw [h1, h2]
  simp [hread]

/-- C7: for every queue value and every path, a `save_as` that succeeds
followed by `load` on the same path reproduces the original in-memory
queue content and order exactly. -/
theorem queue_save_load_round_trip (q : Queue) (path : String) (w : World)
    (hread : w.readOk = true)
    (hok : (Queue.save_as q path w).1 = none) :
    Queue.load path (Queue.save_as q path w).2 = Except.ok q := by
  obtain ⟨hw, hr⟩ := (save_as_fst_eq_none_iff q path w).mp hok
  exact load_after_save q path w hw hr hread

/-- C7 witness: round trip of a two-element queue at the default path. -/
theorem queue_save_load_round_trip_witness :
    Queue.load "commit_queue.json"
        (Queue.save_as ⟨[c0, c1]⟩ "commit_queue.json" w0).2
      = Except.ok ⟨[c0, c1]⟩ :=
  queue_save_load_round_trip ⟨[c0, c1]⟩ "commit_queue.json" w0
    rfl (by decide)

/-- C8: `enqueue` appends the commit to the tail and then saves; it
reports success exactly when the save succeeded, its error is exactly the
save's filesystem error (never swallowed), and on success the appended
queue is what the file holds. The same holds for the `enqueue_commit`
entry point, which loads the persisted queue first. -/
theorem enqueue_propagates_save_error (q : Queue) (c : Commit)
    (path : String) (w : World) (items : List Commit)
    (hfile : w.files path = some (FileData.json items))
    (hread : w.readOk = true) :
    ((Queue.enqueue q c path w).2.1 = none
      ↔ (w.writeOk = true ∧ w.renameOk = true))
    ∧ (Queue.enqueue q c path w).1 = ⟨q.items ++ [c]⟩
    ∧ (Queue.enqueue q c path w).2.1
        = (Queue.save_as ⟨q.items ++ [c]⟩ path w).1
    ∧ (w.writeOk = true → w.renameOk = true →
        (Queue.enqueue q c path w).2.2.files path
          = some (FileData.json (q.items ++ [c])))
    ∧ ((enqueue_commit path c w).1 = none
        ↔ (w.writeOk = true ∧ w.renameOk = true))
    ∧ (w.writeOk = true → w.renameOk = true →
        (enqueue_commit path c w).2.files path
          = some (FileData.json (items ++ [c]))) := by
  have hload : Queue.load path w = Except.ok ⟨items⟩ := by
    unfold Queue.load
    rw [hfile]
    simp [hread]
  refine ⟨save_as_fst_eq_none_iff ⟨q.items ++ [c]⟩ path w, rfl, rfl,
    fun hw hr => save_as_files_path ⟨q.items ++ [c]⟩ path w hw hr, ?_, ?_⟩
  · show (enqueue_commit path c w).1 = none ↔ _
    unfold enqueue_commit
    rw [hload]
    exact save_as_fst_eq_none_iff ⟨items ++ [c]⟩ path w
  · intro hw hr
    unfold enqueue_commit
    rw [hload]
    exact save_as_files_path ⟨items ++ [c]⟩ path w hw hr

/-- C8 witness: appending `c1` to the persisted one-element queue in a
healthy world. -/
theorem enqueue_propagates_save_error_witness :
    ((Queue.enqueue ⟨[c0]⟩ c1 "commit_queue.json" wWith).2.1 = none
      ↔ (wWith.writeOk = true ∧ wWith.renameOk = true))
    ∧ (Queue.enqueue ⟨[c0]⟩ c1 "commit_queue.json" wWith).1
        = ⟨(Queue.mk [c0]).items ++ [c1]⟩
    ∧ (Queue.enqueue ⟨[c0]⟩ c1 "commit_queue.json" wWith).2.1
        = (Queue.save_as ⟨(Queue.mk [c0]).items ++ [c1]⟩
            "commit_queue.json" wWith).1
    ∧ (wWith.writeOk = true → wWith.renameOk = true →
        (Queue.enqueue ⟨[c0]⟩ c1 "commit_queue.json" wWith).2.2.files
          "commit_queue.json"
          = some (FileData.json ((Queue.mk [c0]).items ++ [c1])))
    ∧ ((enqueue_commit "commit_queue.json" c1 wWith).1 = none
        ↔ (wWith.writeOk = true ∧ wWith.renameOk = true))
    ∧ (wWith.writeOk = true → wWith.renameOk = true →
        (enqueue_commit "commit_queue.json" c1 wWith).2.files
          "commit_queue.json" = some (FileData.json ([c0] ++ [c1]))) :=
  enqueue_propagates_save_error ⟨[c0]⟩ c1 "commit_queue.json" wWith [c0]
    (by decide) rfl

/-- C9: `pop_front` on an empty queue returns nothing and leaves the
world — in particular the queue file — completely unchanged (no write);
on a non-empty queue it removes and returns the head and saves the tail,
which the file then holds. -/
theorem pop_front_frame_and_effect (path : String) (w : World) (q : Queue)
    (c : Commit) (rest : List Commit) (hq : q.items = c :: rest)
    (hw : w.writeOk = true) (hr : w.renameOk = true) :
    Queue.pop_front ⟨[]⟩ path w = (⟨[]⟩, Except.ok none, w)
    ∧ Queue.pop_front q path w
        = (⟨rest⟩, Except.ok (some c), (Queue.save_as ⟨rest⟩ path w).2)
    ∧ (Queue.save_as ⟨rest⟩ path w).2.files path
        = some (FileData.json rest) := by
  refine ⟨rfl, ?_, save_as_files_path ⟨rest⟩ path w hw hr⟩
  have hq' : q = ⟨c :: rest⟩ := by
    cases q
    simp_all
  rw [hq']
  exact pop_front_cons_ok c rest path w
    ((save_as_fst_eq_none_iff ⟨rest⟩ path w).mpr ⟨hw, hr⟩)

/-- C9 witness: popping the head of a two-element queue in a healthy
world, next to the empty-queue no-op. -/
theorem pop_front_frame_and_effect_witness :
    Queue.pop_front ⟨[]⟩ "commit_queue.json" w0 = (⟨[]⟩, Except.ok none, w0)
    ∧ Queue.pop_front ⟨[c0, c1]⟩ "commit_queue.json" w0
        = (⟨[c1]⟩, Except.ok (some c0),
            (Queue.save_as ⟨[c1]⟩ "commit_queue.json" w0).2)
    ∧ (Queue.save_as ⟨[c1]⟩ "commit_queue.json" w0).2.files
        "commit_queue.json" = some (FileData.json [c1]) :=
  pop_front_frame_and_effect "commit_queue.json" w0 ⟨[c0, c1]⟩ c0 [c1]
    rfl rfl rfl

/-- C10 counterexample: the FFI boundary accepts a commit whose
`device_id` is the empty string — the conversion succeeds and a full
`sparkwms_queue_enqueue` reports success and persists the commit with an
empty `device_id`, refuting the claim that the boundary rejects empty
device ids. -/
theorem ffi_enqueue_accepts_empty_device_id :
    Commit.tryFrom ⟨CStr.valid "", CStr.valid "A1", -3, 42⟩
      = Except.ok ⟨"", "A1", -3, 42⟩
    ∧ (sparkwms_queue_enqueue CStr.null
        ⟨CStr.valid "", CStr.valid "A1", -3, 42⟩ w0).1 = true
    ∧ (sparkwms_queue_enqueue CStr.null
        ⟨CStr.valid "", CStr.valid "A1", -3, 42⟩ w0).2.files
        "commit_queue.json" = some (FileData.json [⟨"", "A1", -3, 42⟩]) := by
  exact ⟨rfl, by decide, by decide⟩

/-- C10 amended: the boundary validates only that the `device_id` and
`location` pointers are non-null and point at valid UTF-8; a conversion
that succeeds took both strings verbatim from valid C strings (possibly
empty) and carried the numeric fields over unchanged, so the stored
`device_id` after enqueue equals the caller's string and may be empty. -/
theorem ffi_commit_fields_passthrough (v : FfiCommit) (c : Commit)
    (h : Commit.tryFrom v = Except.ok c) :
    v.device_id = CStr.valid c.device_id
    ∧ v.location = CStr.valid c.location
    ∧ c.delta = v.delta ∧ c.item_id = v.item_id := by
  obtain ⟨d, l, dl, ii⟩ := v
  cases d with
  | null => exact absurd h (by simp [Commit.tryFrom, cstr_to_string])
  | invalid => exact absurd h (by simp [Commit.tryFrom, cstr_to_string])
  | valid s =>
    cases l with
    | null => exact absurd h (by simp [Commit.tryFrom, cstr_to_string])
    | invalid => exact absurd h (by simp [Commit.tryFrom, cstr_to_string])
    | valid t =>
      have h2 : Except.ok (ε := AppError) (Commit.mk s t dl ii)
          = Except.ok c := h
      injection h2 with h3
      subst h3
      exact ⟨rfl, rfl, rfl, rfl⟩

/-- C10 amended witness: a conversion with non-empty valid strings. -/
theorem ffi_commit_fields_passthrough_witness :
    (FfiCommit.mk (CStr.valid "dev-1") (CStr.valid "A1") (-3) 42).device_id
      = CStr.valid c0.device_id
    ∧ (FfiCommit.mk (CStr.valid "dev-1") (CStr.valid "A1") (-3)
        42).location = CStr.valid c0.location
    ∧ c0.delta
        = (FfiCommit.mk (CStr.valid "dev-1") (CStr.valid "A1") (-3)
            42).delta
    ∧ c0.item_id
        = (FfiCommit.mk (CStr.valid "dev-1") (CStr.valid "A1") (-3)
            42).item_id :=
  ffi_commit_fields_passthrough
    ⟨CStr.valid "dev-1", CStr.valid "A1", -3, 42⟩ c0 rfl

